import Mathlib

/-!
Verification of the ollama-benchmark repository (two Python scripts,
`images.py` and `speed.py`) against its natural-language specification.

The scripts are shallowly embedded below.  Filesystem reads, the scan of a
folder, and the calls to the external inference client are abstracted as
explicit inputs: a byte list for a file's contents, a list of directory
entries for a recursive scan, and outcome values for each `ollama.chat` /
`ollama.generate` invocation.  A Python call that may raise is modelled with
`Except String`; the control flow of each loop is translated statement by
statement.  Machine floats appear only in the tokens-per-second computation,
which is modelled over `ℚ` (the concrete values the spec mentions are exact
in binary floating point, so the rational model agrees with the Python
semantics on them).
-/

namespace OllamaBench

/-! ## images.py : is_valid_image -/

/-- PNG magic bytes `\x89PNG\r\n\x1a\n` (images.py line 20). -/
def pngMagic : List Nat := [0x89, 0x50, 0x4E, 0x47, 0x0D, 0x0A, 0x1A, 0x0A]

/-- JPEG magic bytes `\xFF\xD8\xFF` (images.py line 21). -/
def jpegMagic : List Nat := [0xFF, 0xD8, 0xFF]

/-- `is_valid_image` (images.py lines 16-24).  The argument is the outcome of
opening and reading the file: `.ok bytes` gives the file's bytes, `.error msg`
models the `open`/`read` raising.  The function reads the first 8 bytes and
tests them against the PNG and JPEG magic sequences; an exception is caught
and reported as a rejection. -/
def is_valid_image (file : Except String (List Nat)) : Bool × String :=
  match file with
  | .error e => (false, "Error reading file: " ++ e)
  | .ok bytes =>
    let header := bytes.take 8
    if pngMagic.isPrefixOf header then (true, "PNG")
    else if jpegMagic.isPrefixOf header then (true, "JPEG")
    else (false, "Not a PNG/JPEG image")

/-! ## images.py : get_images_from_folder -/

/-- One entry produced by `Path(folder).rglob('*')`: its path, whether it is a
regular file, and its `Path.suffix` (the extension with the dot). -/
structure ScanEntry where
  path : String
  isFile : Bool
  suffix : String
deriving DecidableEq, Repr

/-- The extension set of images.py line 27. -/
def valid_extensions : List String := [".png", ".jpg", ".jpeg"]

/-- `get_images_from_folder` (images.py lines 26-38).  The argument is the
outcome of the recursive scan; a raised exception is caught and yields `[]`.
Files whose lowercased suffix is among the valid extensions are collected and
the list is sorted. -/
def get_images_from_folder (scan : Except String (List ScanEntry)) : List String :=
  match scan with
  | .error _ => []
  | .ok entries =>
    let images := (entries.filter
      (fun e => e.isFile && valid_extensions.contains e.suffix.toLower)).map (·.path)
    images.mergeSort (fun a b => decide (a ≤ b))

/-! ## images.py : prompt selection -/

/-- The built-in default prompt (images.py lines 59-66). -/
def default_prompt : String :=
  "\nConvert the image to markdown\n\nFormulae should be in latex format between $ like $a=\\frac\x7bb\x7d\x7bc\x7d$.\nUse simple $ not $$.\n\nOutput only the markdown text.\n"

/-- Python `str.strip()`: drop leading and trailing whitespace characters.
Defined structurally on the character list so that proofs can evaluate it. -/
def pyStrip (s : String) : String :=
  ⟨((s.data.dropWhile Char.isWhitespace).reverse.dropWhile Char.isWhitespace).reverse⟩

/-- `get_prompt_from_file` (images.py lines 44-52).  The sidecar prompt file
`<base>_prompt.md` is abstracted by: whether it exists, whether reading it
succeeds, and its raw content.  On success the content is stripped; a read
failure or a missing file yields `none` (Python `None`). -/
def get_prompt_from_file (sidecarExists readable : Bool) (content : String) :
    Option String :=
  if sidecarExists then
    if readable then some (pyStrip content) else none
  else none

/-- Python's `a or b` for `a : Option String` (`None` and `""` are falsy). -/
def pyOr (a : Option String) (b : String) : String :=
  match a with
  | none => b
  | some s => if s = "" then b else s

/-- The prompt selection `prompt or get_prompt_from_file(image_path) or
default_prompt` of images.py line 91. -/
def current_prompt (prompt : Option String)
    (sidecarExists readable : Bool) (content : String) : String :=
  pyOr prompt (pyOr (get_prompt_from_file sidecarExists readable content) default_prompt)

/-! ## images.py : process_images -/

/-- All the environment-dependent facts about one image path handed to
`process_images`: whether `os.path.exists` holds, the outcome of reading its
bytes (used by `is_valid_image`), the sidecar prompt file's state, and the
outcome of `encode_image` (images.py lines 40-42, an unguarded open/read/
base64-encode that may raise). -/
structure ImageSpec where
  path : String
  pathExists : Bool
  readResult : Except String (List Nat)
  sidecarExists : Bool
  sidecarReadable : Bool
  sidecarContent : String
  encodeResult : Except String String
deriving Repr

/-- Outcome of one `ollama.chat` call: a response carrying the fields the
script extracts (images.py lines 129-141), or a raised exception. -/
inductive ChatOutcome where
  | ok (content : String) (total_duration load_duration eval_duration eval_count : Int)
  | raise (msg : String)
deriving Repr

/-- The success record written to `<model>.json` (images.py lines 129-141);
the timestamp is not modelled. -/
structure ImgRecord where
  model : String
  image : String
  image_type : String
  response : String
  total_duration : Int
  load_duration : Int
  prompt_eval_duration : Int
  eval_count : Int
deriving Repr, DecidableEq

/-- Observable actions of `process_images`, in program order: console
warnings, `ollama.chat` invocations (with the prompt that was sent), and JSON
file writes. -/
inductive ImgEvent where
  | warnNotFound (image : String)
  | warnInvalid (image : String) (msg : String)
  | warnModelNotInstalled (model : String)
  | chatCall (model : String) (image : String) (promptSent : String)
  | writeSuccess (model : String) (image : String) (record : ImgRecord)
  | warnChatError (model : String) (image : String) (msg : String)
  | writeError (model : String) (image : String) (msg : String)
deriving Repr, DecidableEq

/-- The body of the inner `for model in models` loop (images.py lines
99-166): skip an uninstalled model with a warning, otherwise call
`ollama.chat` inside a try block; a response is written as a success record,
an exception is caught, warned about and written as an error record. -/
def process_one_model (installed : List String) (chat : String → String → ChatOutcome)
    (imagePath imgType curPrompt : String) (model : String) : List ImgEvent :=
  if ¬ installed.contains model then
    [.warnModelNotInstalled model]
  else
    match chat model imagePath with
    | .ok content td ld ed ec =>
      [.chatCall model imagePath curPrompt,
       .writeSuccess model imagePath
         ⟨model, imagePath, imgType, content, td, ld, ed, ec⟩]
    | .raise msg =>
      [.chatCall model imagePath curPrompt,
       .warnChatError model imagePath msg,
       .writeError model imagePath msg]

/-- The body of the outer `for image_path in images` loop (images.py lines
71-166).  Returns the events it emits and, in the second component, the
message of an exception that propagates out of the loop: `encode_image`
(line 97) runs outside any try block, so its failure escapes. -/
def process_one_image (installed models : List String) (prompt : Option String)
    (chat : String → String → ChatOutcome) (img : ImageSpec) :
    List ImgEvent × Option String :=
  if ¬ img.pathExists then
    ([.warnNotFound img.path], none)
  else
    let v := is_valid_image img.readResult
    if ¬ v.1 then
      ([.warnInvalid img.path v.2], none)
    else
      let curPrompt := current_prompt prompt img.sidecarExists
        img.sidecarReadable img.sidecarContent
      match img.encodeResult with
      | .error e => ([], some e)
      | .ok _ =>
        ((models.map (process_one_model installed chat img.path v.2 curPrompt)).flatten,
         none)

/-- `process_images` (images.py lines 54-166) over a list of image specs:
images are processed in order; an exception escaping one image's body aborts
the whole call (second component `some msg`), otherwise processing continues
with the next image. -/
def process_images (installed models : List String) (prompt : Option String)
    (chat : String → String → ChatOutcome) :
    List ImageSpec → List ImgEvent × Option String
  | [] => ([], none)
  | img :: rest =>
    match process_one_image installed models prompt chat img with
    | (evs, some e) => (evs, some e)
    | (evs, none) =>
      let r := process_images installed models prompt chat rest
      (evs ++ r.1, r.2)

/-! ## speed.py : benchmark_inference_speed -/

/-- Outcome of one `ollama.generate` call (speed.py lines 82-86): either a
response with its `done` flag and the optional `eval_count` / `eval_duration`
fields (`none` models a missing field, Python `None`), or a raised
exception. -/
inductive GenOutcome where
  | resp (done : Bool) (eval_count eval_duration : Option Int)
  | raise (msg : String)
deriving Repr

/-- One entry of `run_results` (speed.py lines 104-109 and 122-125): a
successful run with its tokens/sec and metrics, or an error record. -/
inductive RunRecord where
  | ok (run : Nat) (tokens_per_second : ℚ) (eval_count eval_duration : Int)
  | err (run : Nat) (msg : String)
deriving Repr, DecidableEq

/-- The loop-local accumulators of speed.py lines 64-67. -/
structure BenchState where
  total_tps : ℚ
  successful_runs : Nat
  run_results : List RunRecord
deriving Repr, DecidableEq

/-- `tps = eval_count / (eval_duration / 1e9)` (speed.py line 100), over ℚ. -/
def tokens_per_second (eval_count eval_duration : Int) : ℚ :=
  (eval_count : ℚ) / ((eval_duration : ℚ) / 10 ^ 9)

/-- The body of `for i in range(num_runs)` (speed.py lines 77-126) for run
index `i` (0-based; `current_run = i + 1`): an exception appends an error
record; a response that is not done, lacks `eval_count` or `eval_duration`,
or has `eval_duration <= 0` is skipped by `continue` with the state
unchanged; otherwise tokens/sec is computed and accumulated and a success
record is appended. -/
def run_step (i : Nat) (o : GenOutcome) (st : BenchState) : BenchState :=
  match o with
  | .raise msg =>
    { st with run_results := st.run_results ++ [.err (i + 1) msg] }
  | .resp done ec ed =>
    if ¬ done then st
    else
      match ec, ed with
      | some ec, some ed =>
        if ed ≤ 0 then st
        else
          let tps := tokens_per_second ec ed
          { total_tps := st.total_tps + tps,
            successful_runs := st.successful_runs + 1,
            run_results := st.run_results ++ [.ok (i + 1) tps ec ed] }
      | _, _ => st

/-- The whole run loop: fold `run_step` over runs `0, ..., num_runs - 1`,
starting from the initial accumulators of speed.py lines 64-67. -/
def bench_runs (outcomes : Nat → GenOutcome) (num_runs : Nat) : BenchState :=
  (List.range num_runs).foldl (fun st i => run_step i (outcomes i) st)
    ⟨0, 0, []⟩

/-- The per-model JSON result (speed.py lines 129-138); the timestamp and
prompt fields are not modelled. -/
structure ModelResult where
  model : String
  total_runs : Nat
  successful_runs : Nat
  average_tokens_per_second : ℚ
  total_eval_count : Int
  runs : List RunRecord
deriving Repr, DecidableEq

/-- `run['eval_count']` when the record has that key (only success records
do), used by the generator expression of speed.py line 128. -/
def record_eval_count : RunRecord → Option Int
  | .ok _ _ ec _ => some ec
  | .err _ _ => none

/-- `total_eval_count = sum(run['eval_count'] for run in run_results if
'eval_count' in run)` (speed.py line 128). -/
def total_eval_count (rs : List RunRecord) : Int :=
  (rs.filterMap record_eval_count).sum

/-- The per-model result assembled at speed.py lines 128-138:
`average_tokens_per_second` is `total_tps / successful_runs` when
`successful_runs > 0` and `0` otherwise. -/
def bench_model (model : String) (num_runs : Nat) (outcomes : Nat → GenOutcome) :
    ModelResult :=
  let st := bench_runs outcomes num_runs
  { model := model
    total_runs := num_runs
    successful_runs := st.successful_runs
    average_tokens_per_second :=
      if st.successful_runs > 0 then st.total_tps / (st.successful_runs : ℚ) else 0
    total_eval_count := total_eval_count st.run_results
    runs := st.run_results }

/-- Observable actions of `benchmark_inference_speed`, in program order. -/
inductive SpeedEvent where
  | warnNotInstalled (model : String)
  | generateCall (model : String) (run : Nat)
  | writeFile (model : String) (result : ModelResult)
  | warnNoSuccess (model : String)
  | reportSuccess (model : String)
deriving Repr, DecidableEq

/-- The body of `for model in models` (speed.py lines 53-162): an uninstalled
model is skipped with a warning and nothing else happens for it; otherwise
`ollama.generate` is called once per run, the result file is written, and
either the no-successful-runs warning (speed.py lines 144-152) or the success
summary is printed. -/
def bench_one_model (installed : List String) (num_runs : Nat)
    (outcomes : String → Nat → GenOutcome) (model : String) : List SpeedEvent :=
  if ¬ installed.contains model then
    [.warnNotInstalled model]
  else
    let result := bench_model model num_runs (outcomes model)
    ((List.range num_runs).map (fun i => SpeedEvent.generateCall model (i + 1)))
      ++ [.writeFile model result]
      ++ (if result.successful_runs = 0 then [.warnNoSuccess model]
          else [.reportSuccess model])

/-- `benchmark_inference_speed` (speed.py lines 34-162) as its event trace
over the list of models (host-info collection and file naming are not
modelled). -/
def benchmark_inference_speed (installed models : List String) (num_runs : Nat)
    (outcomes : String → Nat → GenOutcome) : List SpeedEvent :=
  (models.map (bench_one_model installed num_runs outcomes)).flatten

/-! ## Helper lemmas -/

/-- A list of length at most 8 is a prefix of `xs.take 8` iff it is a prefix
of `xs`: reading only the first 8 bytes loses nothing for the magic tests. -/
theorem isPrefixOf_take_eight (l xs : List Nat) (h : l.length ≤ 8) :
    l.isPrefixOf (xs.take 8) = l.isPrefixOf xs := by
  have hiff : l.isPrefixOf (xs.take 8) ↔ l.isPrefixOf xs := by
    rw [List.isPrefixOf_iff_prefix, List.isPrefixOf_iff_prefix, List.prefix_take_iff]
    simp [h]
  exact Bool.coe_iff_coe.mp hiff

/-! ## Theorems for the claims -/

/-- C4: `is_valid_image` accepts a readable file (with type "PNG" or "JPEG")
iff its bytes start with the PNG magic sequence 0x89 'P' 'N' 'G' CR LF 0x1A
LF or the JPEG magic sequence 0xFF 0xD8 0xFF; every other byte sequence is
rejected with "Not a PNG/JPEG image". -/
theorem C4_is_valid_image_magic (bytes : List Nat) :
    is_valid_image (Except.ok bytes) =
      (if pngMagic.isPrefixOf bytes then (true, "PNG")
       else if jpegMagic.isPrefixOf bytes then (true, "JPEG")
       else (false, "Not a PNG/JPEG image")) := by
  have h1 := isPrefixOf_take_eight pngMagic bytes (by simp [pngMagic])
  have h2 := isPrefixOf_take_eight jpegMagic bytes (by simp [jpegMagic])
  simp only [is_valid_image, h1, h2]

/-- C5: `get_images_from_folder` returns exactly the paths of the scanned
entries that are files with (lowercased) extension .png, .jpg or .jpeg, in
sorted order; a failed scan yields the empty list. -/
theorem C5_get_images_from_folder (entries : List ScanEntry) :
    (∀ s : String, s ∈ get_images_from_folder (Except.ok entries) ↔
      ∃ e, e ∈ entries ∧ e.isFile = true ∧ e.suffix.toLower ∈ valid_extensions
        ∧ e.path = s)
    ∧ (get_images_from_folder (Except.ok entries)).Sorted (· ≤ ·)
    ∧ get_images_from_folder (Except.error "scan failed") = [] := by
  refine ⟨fun s => ?_, ?_, rfl⟩
  · unfold get_images_from_folder
    rw [(List.mergeSort_perm _ _).mem_iff]
    simp [List.mem_filter, and_assoc]
  · have h := List.sorted_mergeSort' (α := String)
      ((entries.filter fun e =>
        e.isFile && valid_extensions.contains e.suffix.toLower).map (·.path))
    simpa [get_images_from_folder] using h

/-- C10: an empty-string (or absent) prompt override does not override: the
selected prompt is then the sidecar-file choice chained with the built-in
default, exactly as with no override; in particular with a readable sidecar
saying "sidecar" that text wins, and with no sidecar the default wins. -/
theorem C10_empty_override_falls_through (se sr : Bool) (c : String) :
    current_prompt (some "") se sr c
      = pyOr (get_prompt_from_file se sr c) default_prompt
    ∧ current_prompt none se sr c
      = pyOr (get_prompt_from_file se sr c) default_prompt
    ∧ current_prompt (some "") true true "sidecar" = "sidecar"
    ∧ current_prompt (some "") false sr c = default_prompt := by
  refine ⟨?_, rfl, by decide, ?_⟩
  · simp [current_prompt, pyOr]
  · simp [current_prompt, pyOr, get_prompt_from_file]

/-- C6: a successful run's recorded tokens-per-second value is
`eval_count / (eval_duration / 1e9)`, and for `eval_count = 100`,
`eval_duration = 2000000000` ns the value is exactly 50. -/
theorem C6_tokens_per_second_formula (model : String) (ec ed : Int) (h : 0 < ed) :
    (bench_model model 1 (fun _ => GenOutcome.resp true (some ec) (some ed))).runs
      = [RunRecord.ok 1 ((ec : ℚ) / ((ed : ℚ) / 10 ^ 9)) ec ed]
    ∧ tokens_per_second 100 2000000000 = 50 := by
  constructor
  · simp [bench_model, bench_runs, run_step, tokens_per_second, not_le.mpr h,
      List.range_succ]
  · norm_num [tokens_per_second]

/-- Witness for C6 at `eval_count = 100`, `eval_duration = 2e9` ns: the
single recorded run carries exactly 50 tokens/sec. -/
theorem C6_witness :
    (bench_model "llama3" 1
      (fun _ => GenOutcome.resp true (some 100) (some 2000000000))).runs
      = [RunRecord.ok 1 50 100 2000000000] := by
  have h := C6_tokens_per_second_formula "llama3" 100 2000000000 (by norm_num)
  have h2 : (((100 : ℤ) : ℚ) / (((2000000000 : ℤ) : ℚ) / 10 ^ 9)) = 50 := by norm_num
  rw [h.1, h2]

/-- C8: for an installed model whose benchmark ends with zero successful
runs, the written result reports `average_tokens_per_second = 0` (no division
happens) and the trace takes the no-successful-runs warning branch; the
result file is still written. -/
theorem C8_zero_successful_runs (installed : List String) (model : String)
    (n : Nat) (outcomes : String → Nat → GenOutcome)
    (hin : model ∈ installed)
    (h0 : (bench_model model n (outcomes model)).successful_runs = 0) :
    (bench_model model n (outcomes model)).average_tokens_per_second = 0
    ∧ SpeedEvent.warnNoSuccess model ∈ bench_one_model installed n outcomes model
    ∧ SpeedEvent.writeFile model (bench_model model n (outcomes model))
        ∈ bench_one_model installed n outcomes model := by
  have hc : installed.contains model = true := by simpa using hin
  have h0' : (bench_runs (outcomes model) n).successful_runs = 0 := h0
  refine ⟨?_, ?_, ?_⟩
  · simp [bench_model, h0']
  · simp [bench_one_model, hc, hin, bench_model, h0']
  · simp [bench_one_model, hc, hin]

/-- Witness for C8: one run that raises an exception gives zero successful
runs, a zero average, and the warning branch. -/
theorem C8_witness :
    (bench_model "m" 1 (fun _ => GenOutcome.raise "conn refused")).average_tokens_per_second = 0
    ∧ SpeedEvent.warnNoSuccess "m"
        ∈ bench_one_model ["m"] 1 (fun _ _ => GenOutcome.raise "conn refused") "m"
    ∧ SpeedEvent.writeFile "m" (bench_model "m" 1 (fun _ => GenOutcome.raise "conn refused"))
        ∈ bench_one_model ["m"] 1 (fun _ _ => GenOutcome.raise "conn refused") "m" := by
  exact C8_zero_successful_runs ["m"] "m" 1 (fun _ _ => GenOutcome.raise "conn refused")
    (by decide) (by decide)

/-- C1 counterexample: with one run whose response is not done, `run_results`
stays empty — no error-marker record is appended for that run, contrary to
the claim (the run is indeed not counted as successful). -/
theorem C1_counterexample :
    (bench_model "llama" 1 (fun _ => GenOutcome.resp false none none)).runs = []
    ∧ (bench_model "llama" 1 (fun _ => GenOutcome.resp false none none)).successful_runs = 0 := by
  constructor <;> decide

/-- C1 amended: a raised exception appends an error record for the run index
and leaves the success count unchanged, while a not-done response, a missing
`eval_count` or `eval_duration`, or a non-positive `eval_duration` leave the
whole state unchanged — such runs are skipped without any record. -/
theorem C1_failed_run_records (st : BenchState) (i : Nat) (msg : String)
    (ec ed : Option Int) (ec' ed' : Int) :
    (run_step i (GenOutcome.raise msg) st).run_results
        = st.run_results ++ [RunRecord.err (i + 1) msg]
    ∧ (run_step i (GenOutcome.raise msg) st).successful_runs = st.successful_runs
    ∧ run_step i (GenOutcome.resp false ec ed) st = st
    ∧ run_step i (GenOutcome.resp true none ed) st = st
    ∧ run_step i (GenOutcome.resp true ec none) st = st
    ∧ (ed' ≤ 0 → run_step i (GenOutcome.resp true (some ec') (some ed')) st = st) := by
  refine ⟨rfl, rfl, rfl, ?_, ?_, fun h => ?_⟩
  · cases ed <;> rfl
  · cases ec <;> rfl
  · simp [run_step, h]

/-- Witness for C1 amended: a response with `eval_duration = 0` leaves the
initial state untouched. -/
theorem C1_witness :
    run_step 0 (GenOutcome.resp true (some 5) (some 0)) ⟨0, 0, []⟩
      = (⟨0, 0, []⟩ : BenchState) :=
  (C1_failed_run_records ⟨0, 0, []⟩ 0 "x" none none 5 0).2.2.2.2.2 (by decide)

/-- The tokens/sec value of a success record (none for an error record). -/
def success_tps : RunRecord → Option ℚ
  | .ok _ t _ _ => some t
  | .err _ _ => none

/-- Sum of the tokens/sec values of the success records in a result list. -/
def success_tps_sum (rs : List RunRecord) : ℚ :=
  (rs.filterMap success_tps).sum

/-- One step of the run loop preserves the accumulator invariant: `total_tps`
is the sum of the recorded success tps values and `successful_runs` counts
the success records. -/
theorem run_step_invariant (i : Nat) (o : GenOutcome) (st : BenchState)
    (h1 : st.total_tps = success_tps_sum st.run_results)
    (h2 : st.successful_runs = (st.run_results.filterMap success_tps).length) :
    (run_step i o st).total_tps = success_tps_sum (run_step i o st).run_results
    ∧ (run_step i o st).successful_runs
        = ((run_step i o st).run_results.filterMap success_tps).length := by
  cases o with
  | raise msg =>
    refine ⟨?_, ?_⟩ <;> simp [run_step, success_tps_sum, success_tps, h1, h2]
  | resp done ec ed =>
    cases done
    · simpa [run_step] using ⟨h1, h2⟩
    · cases ec with
      | none => simpa [run_step] using ⟨h1, h2⟩
      | some ec' =>
        cases ed with
        | none => simpa [run_step] using ⟨h1, h2⟩
        | some ed' =>
          by_cases hle : ed' ≤ 0
          · simpa [run_step, hle] using ⟨h1, h2⟩
          · refine ⟨?_, ?_⟩ <;>
              simp [run_step, hle, success_tps_sum, success_tps, h1, h2]

/-- The invariant holds for the whole run loop. -/
theorem bench_runs_invariant (outcomes : Nat → GenOutcome) (n : Nat) :
    (bench_runs outcomes n).total_tps
      = success_tps_sum (bench_runs outcomes n).run_results
    ∧ (bench_runs outcomes n).successful_runs
      = ((bench_runs outcomes n).run_results.filterMap success_tps).length := by
  suffices h : ∀ (l : List Nat) (st : BenchState),
      st.total_tps = success_tps_sum st.run_results →
      st.successful_runs = (st.run_results.filterMap success_tps).length →
      (l.foldl (fun st i => run_step i (outcomes i) st) st).total_tps
        = success_tps_sum
            (l.foldl (fun st i => run_step i (outcomes i) st) st).run_results
      ∧ (l.foldl (fun st i => run_step i (outcomes i) st) st).successful_runs
        = ((l.foldl (fun st i => run_step i (outcomes i) st) st).run_results.filterMap
            success_tps).length by
    exact h (List.range n) ⟨0, 0, []⟩ (by simp [success_tps_sum]) (by simp)
  intro l
  induction l with
  | nil => exact fun st h1 h2 => ⟨h1, h2⟩
  | cons x xs ih =>
    intro st h1 h2
    exact ih _ (run_step_invariant x (outcomes x) st h1 h2).1
      (run_step_invariant x (outcomes x) st h1 h2).2

/-- The three-run scenario named by the spec: runs at 10 and 20 tokens/sec
(`eval_count` 10 and 20 over one second) and one raising run. -/
def three_run_scenario : Nat → GenOutcome := fun i =>
  if i = 0 then GenOutcome.resp true (some 10) (some 1000000000)
  else if i = 1 then GenOutcome.resp true (some 20) (some 1000000000)
  else GenOutcome.raise "error"

/-- C7: whenever at least one run succeeded, `average_tokens_per_second` is
the sum of the successful runs' tokens/sec divided by the number of
successful runs; for successful runs at 10 and 20 tokens/sec plus one failed
run the average is 15 and `successful_runs` is 2. -/
theorem C7_average_is_mean_of_successes (model : String) (n : Nat)
    (outcomes : Nat → GenOutcome)
    (h : 0 < (bench_model model n outcomes).successful_runs) :
    (bench_model model n outcomes).average_tokens_per_second
      = success_tps_sum (bench_model model n outcomes).runs
        / ((bench_model model n outcomes).successful_runs : ℚ)
    ∧ (bench_model "m" 3 three_run_scenario).average_tokens_per_second = 15
    ∧ (bench_model "m" 3 three_run_scenario).successful_runs = 2 := by
  refine ⟨?_, ?_, ?_⟩
  · have hi := bench_runs_invariant outcomes n
    have h' : 0 < (bench_runs outcomes n).successful_runs := h
    simp [bench_model, h', hi.1]
  · norm_num [bench_model, bench_runs, List.range_succ, run_step,
      three_run_scenario, tokens_per_second]
  · norm_num [bench_model, bench_runs, List.range_succ, run_step,
      three_run_scenario, tokens_per_second]

/-- Witness for C7 at the 10/20/failed scenario. -/
theorem C7_witness :
    (bench_model "m" 3 three_run_scenario).average_tokens_per_second
      = success_tps_sum (bench_model "m" 3 three_run_scenario).runs
        / ((bench_model "m" 3 three_run_scenario).successful_runs : ℚ)
    ∧ (bench_model "m" 3 three_run_scenario).average_tokens_per_second = 15
    ∧ (bench_model "m" 3 three_run_scenario).successful_runs = 2 :=
  C7_average_is_mean_of_successes "m" 3 three_run_scenario (by decide)

/-- A `generateCall` event in one model's speed-benchmark trace names that
model, and that model is installed. -/
theorem generateCall_mem_bench_one_model (installed : List String) (n : Nat)
    (outcomes : String → Nat → GenOutcome) (model m : String) (r : Nat)
    (h : SpeedEvent.generateCall m r ∈ bench_one_model installed n outcomes model) :
    m = model ∧ model ∈ installed := by
  by_cases hc : model ∈ installed
  · simp [bench_one_model, hc] at h
    rcases h with ⟨a, _, heq, _⟩ | h
    · exact ⟨heq.symm, hc⟩
    · split at h <;> simp at h
  · simp [bench_one_model, hc] at h

/-- A `chatCall` event in one model's image-processing trace names that
model, and that model is installed. -/
theorem chatCall_mem_process_one_model (installed : List String)
    (chat : String → String → ChatOutcome) (ip it cp model m img p : String)
    (h : ImgEvent.chatCall m img p ∈ process_one_model installed chat ip it cp model) :
    m = model ∧ model ∈ installed ∧ p = cp := by
  by_cases hc : model ∈ installed
  · cases hchat : chat model ip with
    | ok content td ld ed ec =>
      simp [process_one_model, hc, hchat] at h
      exact ⟨h.1, hc, h.2.2⟩
    | raise msg =>
      simp [process_one_model, hc, hchat] at h
      exact ⟨h.1, hc, h.2.2⟩
  · simp [process_one_model, hc] at h

/-- A `chatCall` event emitted while processing one image names an installed
model. -/
theorem chatCall_mem_process_one_image (installed models : List String)
    (prompt : Option String) (chat : String → String → ChatOutcome)
    (img : ImageSpec) (m i p : String)
    (h : ImgEvent.chatCall m i p ∈ (process_one_image installed models prompt chat img).1) :
    m ∈ installed := by
  by_cases he : img.pathExists
  · by_cases hv2 : (is_valid_image img.readResult).1
    · cases henc : img.encodeResult with
      | error e => simp [process_one_image, he, hv2, henc] at h
      | ok s =>
        simp [process_one_image, he, hv2, henc] at h
        rcases h with ⟨model', _, hmem⟩
        obtain ⟨rfl, hin, -⟩ :=
          chatCall_mem_process_one_model installed chat img.path _ _ model' m i p hmem
        exact hin
    · simp [process_one_image, he, hv2] at h
  · simp [process_one_image, he] at h

/-- A `chatCall` event anywhere in a `process_images` trace names an
installed model. -/
theorem chatCall_mem_process_images (installed models : List String)
    (prompt : Option String) (chat : String → String → ChatOutcome)
    (images : List ImageSpec) (m i p : String)
    (h : ImgEvent.chatCall m i p ∈ (process_images installed models prompt chat images).1) :
    m ∈ installed := by
  induction images with
  | nil => simp [process_images] at h
  | cons img rest ih =>
    rw [process_images] at h
    rcases hpi : process_one_image installed models prompt chat img with ⟨evs, err⟩
    rw [hpi] at h
    cases err with
    | some e =>
      exact chatCall_mem_process_one_image installed models prompt chat img m i p
        (by rw [hpi]; exact h)
    | none =>
      simp only [List.mem_append] at h
      rcases h with h | h
      · exact chatCall_mem_process_one_image installed models prompt chat img m i p
          (by rw [hpi]; exact h)
      · exact ih h

/-- C2: a model absent from the installed-models list never receives a
`generate` call from the speed tool nor a `chat` call from the image tool,
and each tool emits its not-installed warning for it (the image tool once for
every image that reaches the model loop: an existing, valid image whose
encoding succeeds). -/
theorem C2_uninstalled_model_never_invoked (installed models : List String)
    (m : String) (hm : m ∉ installed) (num_runs : Nat)
    (outcomes : String → Nat → GenOutcome) (images : List ImageSpec)
    (prompt : Option String) (chat : String → String → ChatOutcome) :
    (∀ r, SpeedEvent.generateCall m r
        ∉ benchmark_inference_speed installed models num_runs outcomes)
    ∧ (∀ img p, ImgEvent.chatCall m img p
        ∉ (process_images installed models prompt chat images).1)
    ∧ (m ∈ models → SpeedEvent.warnNotInstalled m
        ∈ benchmark_inference_speed installed models num_runs outcomes)
    ∧ (m ∈ models → ∀ img : ImageSpec, img.pathExists = true →
        (is_valid_image img.readResult).1 = true →
        (∃ s, img.encodeResult = Except.ok s) →
        ImgEvent.warnModelNotInstalled m
          ∈ (process_one_image installed models prompt chat img).1) := by
  refine ⟨fun r hmem => ?_, fun img p hmem => ?_, fun hmm => ?_, fun hmm img he hv hs => ?_⟩
  · simp only [benchmark_inference_speed, List.mem_flatten, List.mem_map] at hmem
    rcases hmem with ⟨l, ⟨model', _, rfl⟩, hin⟩
    obtain ⟨rfl, hinst⟩ :=
      generateCall_mem_bench_one_model installed num_runs outcomes model' m r hin
    exact hm hinst
  · exact hm (chatCall_mem_process_images installed models prompt chat images m img p hmem)
  · simp only [benchmark_inference_speed, List.mem_flatten, List.mem_map]
    exact ⟨bench_one_model installed num_runs outcomes m, ⟨m, hmm, rfl⟩,
      by simp [bench_one_model, hm]⟩
  · obtain ⟨s, hs⟩ := hs
    unfold process_one_image
    rw [if_neg (by simp [he]), if_neg (by simp [hv]), hs]
    simp only [List.mem_flatten, List.mem_map]
    exact ⟨process_one_model installed chat img.path (is_valid_image img.readResult).2
      (current_prompt prompt img.sidecarExists img.sidecarReadable img.sidecarContent) m,
      ⟨m, hmm, rfl⟩, by simp [process_one_model, hm]⟩

/-- Witness for C2: model "b" is not among the installed models `["a"]`, so
its calls are absent and the warnings are present. -/
theorem C2_witness :
    (∀ r, SpeedEvent.generateCall "b" r
        ∉ benchmark_inference_speed ["a"] ["b"] 1 (fun _ _ => GenOutcome.raise "x"))
    ∧ (∀ img p, ImgEvent.chatCall "b" img p
        ∉ (process_images ["a"] ["b"] none (fun _ _ => ChatOutcome.raise "x")
            [⟨"i.jpg", true, Except.ok [0xFF, 0xD8, 0xFF], false, false, "", Except.ok "e"⟩]).1)
    ∧ ("b" ∈ ["b"] → SpeedEvent.warnNotInstalled "b"
        ∈ benchmark_inference_speed ["a"] ["b"] 1 (fun _ _ => GenOutcome.raise "x"))
    ∧ ("b" ∈ ["b"] → ∀ img : ImageSpec, img.pathExists = true →
        (is_valid_image img.readResult).1 = true →
        (∃ s, img.encodeResult = Except.ok s) →
        ImgEvent.warnModelNotInstalled "b"
          ∈ (process_one_image ["a"] ["b"] none (fun _ _ => ChatOutcome.raise "x") img).1) :=
  C2_uninstalled_model_never_invoked ["a"] ["b"] "b" (by decide) 1
    (fun _ _ => GenOutcome.raise "x")
    [⟨"i.jpg", true, Except.ok [0xFF, 0xD8, 0xFF], false, false, "", Except.ok "e"⟩]
    none (fun _ _ => ChatOutcome.raise "x")

/-- Processing one image raises nothing when its encoding succeeds: every
other failure (missing path, invalid bytes) is handled with a warning. -/
theorem process_one_image_no_raise (installed models : List String)
    (prompt : Option String) (chat : String → String → ChatOutcome)
    (img : ImageSpec) (h : ∃ s, img.encodeResult = Except.ok s) :
    (process_one_image installed models prompt chat img).2 = none := by
  obtain ⟨s, hs⟩ := h
  by_cases he : img.pathExists
  · by_cases hv : (is_valid_image img.readResult).1
    · simp [process_one_image, he, hv, hs]
    · simp [process_one_image, he, hv]
  · simp [process_one_image, he]

/-- C3 counterexample: an exception raised by `encode_image` (images.py line
97, which runs outside the try block) propagates out of `process_images`:
with an existing, valid JPEG whose base64 encoding raises "boom", the whole
call aborts with that exception, no chat call happens and no error record is
written. -/
theorem C3_counterexample :
    process_images ["m"] ["m"] none (fun _ _ => ChatOutcome.ok "r" 1 2 3 4)
      [⟨"img.jpg", true, Except.ok [0xFF, 0xD8, 0xFF], false, false, "",
        Except.error "boom"⟩]
      = ([], some "boom") := by decide

/-- C3 amended: an exception raised by the `ollama.chat` call is caught
inside the per-model loop, reported as a warning and written as an
error-tagged record, and processing continues; and whenever every image's
encoding succeeds, no exception propagates out of `process_images`.  (Only a
failure of `encode_image` itself escapes — see the counterexample.) -/
theorem C3_chat_errors_caught (installed models : List String)
    (prompt : Option String) (chat : String → String → ChatOutcome)
    (images : List ImageSpec)
    (henc : ∀ img ∈ images, ∃ s, img.encodeResult = Except.ok s)
    (model ip it cp msg : String) (hin : model ∈ installed)
    (hchat : chat model ip = ChatOutcome.raise msg) :
    (process_images installed models prompt chat images).2 = none
    ∧ process_one_model installed chat ip it cp model
        = [ImgEvent.chatCall model ip cp, ImgEvent.warnChatError model ip msg,
           ImgEvent.writeError model ip msg] := by
  constructor
  · induction images with
    | nil => rfl
    | cons img rest ih =>
      rw [process_images]
      rcases hpi : process_one_image installed models prompt chat img with ⟨evs, err⟩
      have herr : err = none := by
        have h2 := process_one_image_no_raise installed models prompt chat img
          (henc img (by simp))
        rw [hpi] at h2
        exact h2
      subst herr
      simpa using ih (fun i hi => henc i (by simp [hi]))
  · simp [process_one_model, hin, hchat]

/-- Witness for C3 amended: one valid image whose encoding succeeds and a
chat call that raises "boom". -/
theorem C3_witness :
    (process_images ["m"] ["m"] none (fun _ _ => ChatOutcome.raise "boom")
      [⟨"img.jpg", true, Except.ok [0xFF, 0xD8, 0xFF], false, false, "",
        Except.ok "enc"⟩]).2 = none
    ∧ process_one_model ["m"] (fun _ _ => ChatOutcome.raise "boom") "img.jpg" "JPEG"
        "p" "m"
        = [ImgEvent.chatCall "m" "img.jpg" "p",
           ImgEvent.warnChatError "m" "img.jpg" "boom",
           ImgEvent.writeError "m" "img.jpg" "boom"] :=
  C3_chat_errors_caught ["m"] ["m"] none (fun _ _ => ChatOutcome.raise "boom")
    [⟨"img.jpg", true, Except.ok [0xFF, 0xD8, 0xFF], false, false, "",
      Except.ok "enc"⟩]
    (by intro img hi; simp at hi; subst hi; exact ⟨"enc", rfl⟩)
    "m" "img.jpg" "JPEG" "p" "boom" (by decide) rfl

/-- C9 counterexample: the explicit override is given as the empty string and
a readable sidecar file holds "sidecar prompt"; the chat request is sent with
the sidecar text rather than the given override, so "the explicit override if
given" does not describe the code. -/
theorem C9_counterexample :
    (process_one_image ["m"] ["m"] (some "") (fun _ _ => ChatOutcome.ok "r" 1 2 3 4)
      ⟨"img.jpg", true, Except.ok [0xFF, 0xD8, 0xFF], true, true, "sidecar prompt",
        Except.ok "enc"⟩).1
      = [ImgEvent.chatCall "m" "img.jpg" "sidecar prompt",
         ImgEvent.writeSuccess "m" "img.jpg" ⟨"m", "img.jpg", "JPEG", "r", 1, 2, 3, 4⟩]
    ∧ ("sidecar prompt" : String) ≠ "" := by
  constructor
  · decide
  · decide

/-- C9 amended: the prompt sent with every chat request is the value of the
images.py line 91 chain, and that chain picks the first non-empty candidate:
the explicit override if given and non-empty; otherwise the stripped sidecar
content if the sidecar file exists, is readable, and strips to non-empty;
otherwise the built-in default prompt. -/
theorem C9_prompt_precedence (installed models : List String)
    (prompt : Option String) (chat : String → String → ChatOutcome)
    (img : ImageSpec) (m i ps p c : String) (se sr : Bool) :
    (ImgEvent.chatCall m i ps ∈ (process_one_image installed models prompt chat img).1 →
      ps = current_prompt prompt img.sidecarExists img.sidecarReadable img.sidecarContent)
    ∧ (p ≠ "" → current_prompt (some p) se sr c = p)
    ∧ (pyStrip c ≠ "" → current_prompt none true true c = pyStrip c)
    ∧ (pyStrip c = "" → current_prompt none true true c = default_prompt)
    ∧ current_prompt none false sr c = default_prompt
    ∧ current_prompt none true false c = default_prompt
    ∧ current_prompt (some "") se sr c = current_prompt none se sr c := by
  refine ⟨fun h => ?_, fun hp => ?_, fun hc => ?_, fun hc => ?_, ?_, ?_, ?_⟩
  · by_cases he : img.pathExists
    · by_cases hv2 : (is_valid_image img.readResult).1
      · cases henc : img.encodeResult with
        | error e => simp [process_one_image, he, hv2, henc] at h
        | ok s =>
          simp [process_one_image, he, hv2, henc] at h
          rcases h with ⟨model', _, hmem⟩
          exact (chatCall_mem_process_one_model installed chat img.path _ _
            model' m i ps hmem).2.2
      · simp [process_one_image, he, hv2] at h
    · simp [process_one_image, he] at h
  · simp [current_prompt, pyOr, hp]
  · simp [current_prompt, pyOr, get_prompt_from_file, hc]
  · simp [current_prompt, pyOr, get_prompt_from_file, hc]
  · simp [current_prompt, pyOr, get_prompt_from_file]
  · simp [current_prompt, pyOr, get_prompt_from_file]
  · simp [current_prompt, pyOr]

/-- Witness for C9 amended: the empty override with a readable sidecar, a
non-empty override, and the stripped-content cases, all at concrete
strings. -/
theorem C9_witness :
    ("sidecar prompt"
      = current_prompt (some "") true true "sidecar prompt")
    ∧ current_prompt (some "override") true true " hi " = "override"
    ∧ current_prompt none true true " hi " = pyStrip " hi "
    ∧ current_prompt none true true "  " = default_prompt
    ∧ current_prompt none false true " hi " = default_prompt
    ∧ current_prompt none true false " hi " = default_prompt
    ∧ current_prompt (some "") true true " hi " = current_prompt none true true " hi " := by
  have h := C9_prompt_precedence ["m"] ["m"] (some "")
    (fun _ _ => ChatOutcome.ok "r" 1 2 3 4)
    ⟨"img.jpg", true, Except.ok [0xFF, 0xD8, 0xFF], true, true, "sidecar prompt",
      Except.ok "enc"⟩
    "m" "img.jpg" "sidecar prompt" "override" " hi " true true
  have h2 := C9_prompt_precedence ["m"] ["m"] none
    (fun _ _ => ChatOutcome.ok "r" 1 2 3 4)
    ⟨"img.jpg", true, Except.ok [0xFF, 0xD8, 0xFF], true, true, "sidecar prompt",
      Except.ok "enc"⟩
    "m" "img.jpg" "x" "override" "  " true true
  exact ⟨h.1 (by decide), h.2.1 (by decide), h.2.2.1 (by decide),
    h2.2.2.2.1 (by decide), h.2.2.2.2.1, h.2.2.2.2.2.1, h.2.2.2.2.2.2⟩

end OllamaBench
